import Mathlib

/-!
# Verification of the gin-auth OAuth2 core

Shallow embedding of the gin-auth authorization server core: the scope and
approval logic of `data/client.go`, the OAuth HTTP handlers of the `web`
package (`Token`, `Approve`, `oauth.ServeHTTP`), and the record store they
operate on.

Modelling conventions:
* `util.StringSet` (a Go set of strings) is embedded as `Finset String`;
  `IsSuperset a b` is `b ⊆ a`, `Union` is `∪`, `Intersect` is `∩`,
  `Difference` is `\`, `Len` is `Finset.card`.
* The SQL database is embedded as explicit record stores: lists for tables
  scanned by predicate, functions to `Option` for tables accessed by key
  (the durable-store contract: create-if-absent, get-by-key, update,
  delete, atomic per record).
* `sql.NullString` fields are `Option String`; timestamps are `Nat`.
* Fresh random token strings (`util.RandomToken`) and the configured token
  lifetime are passed as explicit arguments; a duplicate key on create is
  surfaced as an error, never retried.
* Data-layer functions that are referenced by the handlers but whose
  bodies are not among the sources are modelled from the spec; each such
  definition carries a doc comment starting `Modelled from the spec:`.
-/

namespace GinAuth

/-- Scope sets (`util.StringSet`): unordered, deduplicated sets of opaque
scope names. -/
abbrev StringSet := Finset String

/-- `data.Client`: a registered OAuth client. `ScopeProvided` holds the
names of the client's provided-scope catalog (the keys of Go's
`ScopeProvidedMap`; descriptions play no role in the verified logic).
`ScopeWhitelist` is the pre-approved scope used by the `web` handlers. -/
structure Client where
  UUID : String
  Name : String
  Secret : String
  ScopeProvided : StringSet
  ScopeWhitelist : StringSet
  RedirectURIs : StringSet
deriving DecidableEq

/-- `data.ClientApproval`: durable consent record for a (client, account)
pair. -/
structure ClientApproval where
  ClientUUID : String
  AccountUUID : String
  Scope : StringSet
deriving DecidableEq

/-- `data.Account`: only the identity facets the core needs. -/
structure Account where
  UUID : String
  Login : String
deriving DecidableEq

/-- The client-side database state: the `Clients` table (with each
client's `ClientScopeProvided` rows folded into its `ScopeProvided` field)
and the `ClientApprovals` table, keyed by (clientUUID, accountUUID) as its
primary key dictates. -/
structure DataDB where
  clients : List Client
  approvals : String → String → Option StringSet

/-- All rows of the `ClientScopeProvided` table: the union of the
provided-scope catalogs of all registered clients. -/
def scopeProvidedAll (db : DataDB) : StringSet :=
  db.clients.foldr (fun c acc => c.ScopeProvided ∪ acc) ∅

/-- `data.CheckScope`: false on the empty set, otherwise true iff every
requested name appears among the provided scopes of some registered
client (`global.IsSuperset(scope)`). -/
def CheckScope (db : DataDB) (scope : StringSet) : Bool :=
  if scope.card = 0 then false
  else decide (scope ⊆ scopeProvidedAll db)

/-- `Client.ApprovalForAccount`: keyed lookup in `ClientApprovals`. -/
def Client.ApprovalForAccount (client : Client) (db : DataDB)
    (accountUUID : String) : Option ClientApproval :=
  (db.approvals client.UUID accountUUID).map
    (fun s => ⟨client.UUID, accountUUID, s⟩)

/-- Keyed create/update on the `ClientApprovals` table (the durable-store
contract behind `ClientApproval.Create` and `ClientApproval.Update`). -/
def DataDB.setApproval (db : DataDB) (clientUUID accountUUID : String)
    (scope : StringSet) : DataDB :=
  { db with
    approvals := fun c a =>
      if c = clientUUID ∧ a = accountUUID then some scope
      else db.approvals c a }

/-- `Client.Approve` (data/client.go): reject scope failing `CheckScope`;
if an approval exists and is not already a superset of `scope`, replace
its scope by the union and persist; if none exists, create one with
exactly `scope`. -/
def Client.Approve (client : Client) (db : DataDB) (accountUUID : String)
    (scope : StringSet) : Except String DataDB :=
  if CheckScope db scope then
    match client.ApprovalForAccount db accountUUID with
    | some approval =>
        if decide (scope ⊆ approval.Scope) then .ok db
        else .ok (db.setApproval client.UUID accountUUID (approval.Scope ∪ scope))
    | none => .ok (db.setApproval client.UUID accountUUID scope)
  else .error "Invalid scope"

/-- `Client.Approve` as a state transformer: on error the database is
left unchanged (the handler surfaces the error without further writes). -/
def approveRun (client : Client) (accountUUID : String) (db : DataDB)
    (scope : StringSet) : DataDB :=
  match client.Approve db accountUUID scope with
  | .ok db' => db'
  | .error _ => db

/-- Growth order on stored approval scopes: an absent record is below
everything; a present record may only grow into a superset. -/
def approvalLE : Option StringSet → Option StringSet → Prop
  | none, _ => True
  | some s, some t => s ⊆ t
  | some _, none => False

/-- `data.GrantRequest`: one authorization attempt. -/
structure GrantRequest where
  Token : String
  GrantType : String
  RedirectURI : String
  State : String
  ScopeRequested : StringSet
  ClientUUID : String
  AccountUUID : Option String
  Code : Option String
deriving DecidableEq

/-- `data.AccessToken` (field order as in the tests). -/
structure AccessToken where
  Token : String
  Scope : StringSet
  Expires : Nat
  ClientUUID : String
  AccountUUID : Option String
deriving DecidableEq

/-- `data.RefreshToken`: no expiry; the account binding is mandatory. -/
structure RefreshToken where
  Token : String
  Scope : StringSet
  ClientUUID : String
  AccountUUID : String
deriving DecidableEq

/-- The token-side database state: `GrantRequests` scanned by predicate,
access and refresh tokens keyed by their token string. -/
structure TokenStore where
  grantRequests : List GrantRequest
  accessTokens : String → Option AccessToken
  refreshTokens : String → Option RefreshToken

/-- Modelled from the spec: `data.GetGrantRequest` (absent from the
sources) — get-by-key on the grant request's own opaque token (§6). -/
def GetGrantRequest (store : TokenStore) (token : String) :
    Option GrantRequest :=
  store.grantRequests.find? (fun g => decide (g.Token = token))

/-- Modelled from the spec: `data.GetGrantRequestByCode` (absent from the
sources) — get-by-secondary-key on the one-time exchange code (§6). A
request whose code column is NULL matches no lookup. -/
def GetGrantRequestByCode (store : TokenStore) (code : String) :
    Option GrantRequest :=
  store.grantRequests.find? (fun g => decide (g.Code = some code))

/-- Modelled from the spec: `GrantRequest.Delete` (absent from the
sources) — delete-by-key on the request token (§6). -/
def GrantRequest.Delete (store : TokenStore) (request : GrantRequest) :
    TokenStore :=
  { store with
    grantRequests :=
      store.grantRequests.filter (fun g => decide (¬ g.Token = request.Token)) }

/-- Modelled from the spec: `AccessToken.Create` (absent from the
sources) — create-if-absent; a key collision is surfaced as an error and
never silently retried (§4.5, §6). -/
def AccessToken.Create (store : TokenStore) (access : AccessToken) :
    Except String TokenStore :=
  match store.accessTokens access.Token with
  | some _ => .error "duplicate key"
  | none => .ok { store with
      accessTokens := fun t =>
        if t = access.Token then some access else store.accessTokens t }

/-- Modelled from the spec: `RefreshToken.Create` (absent from the
sources) — create-if-absent, collision surfaced as an error (§4.5, §6). -/
def RefreshToken.Create (store : TokenStore) (refresh : RefreshToken) :
    Except String TokenStore :=
  match store.refreshTokens refresh.Token with
  | some _ => .error "duplicate key"
  | none => .ok { store with
      refreshTokens := fun t =>
        if t = refresh.Token then some refresh else store.refreshTokens t }

/-- Modelled from the spec: `RefreshToken.Delete` (absent from the
sources) — delete-by-key (§6). -/
def RefreshToken.Delete (store : TokenStore) (refresh : RefreshToken) :
    TokenStore :=
  { store with
    refreshTokens := fun t =>
      if t = refresh.Token then none else store.refreshTokens t }

/-- Modelled from the spec: `data.GetAccessToken` (absent from the
sources; behaviour fixed by the §3 AccessToken invariant, §4.5's read
path and `TestGetAccessToken`) — keyed lookup with lazy expiry: a token
retrieved at or after its expiry timestamp is treated as nonexistent. -/
def GetAccessToken (store : TokenStore) (now : Nat) (token : String) :
    Option AccessToken :=
  match store.accessTokens token with
  | none => none
  | some tok => if tok.Expires ≤ now then none else some tok

/-- Modelled from the spec: `data.GetRefreshToken` (absent from the
sources) — keyed lookup; refresh tokens never expire (§3). -/
def GetRefreshToken (store : TokenStore) (token : String) :
    Option RefreshToken :=
  store.refreshTokens token

/-- Modelled from the spec: `GrantRequest.ExchangeCodeForTokens` (absent
from the sources; §4.5 authorization_code) — mint one access token and
one refresh token scoped to the request's requested scope, bound to the
request's account and client, delete the grant request (the code is
single-use), and return both token strings. An unauthenticated request
cannot be exchanged. -/
def GrantRequest.ExchangeCodeForTokens (store : TokenStore)
    (request : GrantRequest) (newAccess newRefresh : String)
    (expires : Nat) : Except String (String × String × TokenStore) :=
  match request.AccountUUID with
  | none => .error "grant request is not authenticated"
  | some accountUUID =>
    let store1 := GrantRequest.Delete store request
    match AccessToken.Create store1
        ⟨newAccess, request.ScopeRequested, expires, request.ClientUUID,
         some accountUUID⟩ with
    | .error e => .error e
    | .ok store2 =>
      match RefreshToken.Create store2
          ⟨newRefresh, request.ScopeRequested, request.ClientUUID,
           accountUUID⟩ with
      | .error e => .error e
      | .ok store3 => .ok (newAccess, newRefresh, store3)

namespace web

/-- The error JSON a handler emits on an early return
(`PrintErrorJSON(w, r, message, status)`). -/
structure ErrorJSON where
  message : String
  status : Nat
deriving DecidableEq

/-- `web.tokenResponse`: the JSON body of a successful token exchange.
The wire format joins the scope with spaces; set equality is what the
verified properties speak about, so the scope stays a set here. -/
structure tokenResponse where
  TokenType : String
  Scope : StringSet
  AccessToken : String
  RefreshToken : Option String
deriving DecidableEq

/-- The `authorization_code` case of `web.Token`, entered with the
already-authenticated client. Fresh random token strings and the
configured expiry are explicit arguments. -/
def tokenAuthorizationCode (store : TokenStore) (client : Client)
    (code newAccess newRefresh : String) (expires : Nat) :
    TokenStore × Except ErrorJSON tokenResponse :=
  match GetGrantRequestByCode store code with
  | none => (store, .error ⟨"Invalid grant code", 401⟩)
  | some request =>
    if request.ClientUUID ≠ client.UUID then
      (GrantRequest.Delete store request, .error ⟨"Invalid grant code", 401⟩)
    else
      match GrantRequest.ExchangeCodeForTokens store request newAccess
          newRefresh expires with
      | .error _ => (store, .error ⟨"Invalid grant code", 401⟩)
      | .ok (access, refresh, store') =>
        (store', .ok ⟨"Bearer", request.ScopeRequested, access, some refresh⟩)

/-- The `refresh_token` case of `web.Token`. -/
def tokenRefreshToken (store : TokenStore) (client : Client)
    (refreshStr newAccess : String) (expires : Nat) :
    TokenStore × Except ErrorJSON tokenResponse :=
  match GetRefreshToken store refreshStr with
  | none => (store, .error ⟨"Invalid refresh token", 401⟩)
  | some refresh =>
    if refresh.ClientUUID ≠ client.UUID then
      (RefreshToken.Delete store refresh, .error ⟨"Invalid refresh token", 401⟩)
    else
      match AccessToken.Create store
          ⟨newAccess, refresh.Scope, expires, refresh.ClientUUID,
           some refresh.AccountUUID⟩ with
      | .error e => (store, .error ⟨e, 500⟩)
      | .ok store' => (store', .ok ⟨"Bearer", refresh.Scope, newAccess, none⟩)

/-- The `password` case of `web.Token`, entered after the account's
login and password have been verified. -/
def tokenPassword (store : TokenStore) (client : Client)
    (account : Account) (scope : StringSet) (newAccess : String)
    (expires : Nat) : TokenStore × Except ErrorJSON tokenResponse :=
  if scope.card = 0 ∨ ¬ scope ⊆ client.ScopeWhitelist then
    (store, .error ⟨"Invalid scope", 401⟩)
  else
    match AccessToken.Create store
        ⟨newAccess, scope, expires, client.UUID, some account.UUID⟩ with
    | .error e => (store, .error ⟨e, 500⟩)
    | .ok store' => (store', .ok ⟨"Bearer", scope, newAccess, none⟩)

/-- The `client_credentials` case of `web.Token`: no account binding. -/
def tokenClientCredentials (store : TokenStore) (client : Client)
    (scope : StringSet) (newAccess : String) (expires : Nat) :
    TokenStore × Except ErrorJSON tokenResponse :=
  if scope.card = 0 ∨ ¬ scope ⊆ client.ScopeWhitelist then
    (store, .error ⟨"Invalid scope", 401⟩)
  else
    match AccessToken.Create store
        ⟨newAccess, scope, expires, client.UUID, none⟩ with
    | .error e => (store, .error ⟨e, 500⟩)
    | .ok store' => (store', .ok ⟨"Bearer", scope, newAccess, none⟩)

/-- Consent core of `web.Approve`, after form decoding and grant-request
lookup: reject an unauthenticated request; compute the scope still
requiring consent as requested minus whitelist; reject when the
user-approved scope does not cover it; otherwise record the full
requested scope through `Client.Approve`. -/
def Approve (db : DataDB) (client : Client) (request : GrantRequest)
    (scopeApproved : StringSet) : Except String DataDB :=
  match request.AccountUUID with
  | none => .error "Grant request is not authenticated"
  | some accountUUID =>
    let scopeRequired := request.ScopeRequested \ client.ScopeWhitelist
    if ¬ scopeRequired ⊆ scopeApproved then
      .error "Requested scope was not approved"
    else client.Approve db accountUUID request.ScopeRequested

/-- `web.OAuthInfo`: the authorization info stored for an in-flight
request. -/
structure OAuthInfo where
  Match : StringSet
  Token : AccessToken
deriving DecidableEq

/-- How the inner handler wrapped by `oauth` exits: normally or by
panicking. -/
inductive HandlerOutcome where
  | normal
  | panicked
deriving DecidableEq

/-- Observable result of `oauth.ServeHTTP`: an early error JSON, or the
inner handler ran (and exited with the given outcome). -/
inductive ServeResult where
  | errorJSON (message : String) (status : Nat)
  | handled (outcome : HandlerOutcome)
deriving DecidableEq

/-- The `oauth` middleware value (its wrapped handler is supplied as the
`inner` outcome argument of `ServeHTTP`). -/
structure oauth where
  Permissive : Bool
  scope : StringSet
deriving DecidableEq

/-- Go's `strings.HasPrefix`, as a character-list test (the header is
ASCII, where Go's byte view and the character view agree). -/
def hasPrefixGo (s pre : String) : Bool :=
  pre.toList.isPrefixOf s.toList

/-- Go's slice `s[n:]`, as a character drop (ASCII input). -/
def dropChars (s : String) (n : Nat) : String :=
  String.mk (s.toList.drop n)

/-- Go's `strings.Trim(s, " ")`: strip leading and trailing spaces. -/
def trimSpaces (s : String) : String :=
  String.mk
    (((s.toList.dropWhile (fun c => c = ' ')).reverse.dropWhile
        (fun c => c = ' ')).reverse)

/-- `oauth.ServeHTTP`. The shared `tokens.store` map (keyed in Go by the
request pointer, here by a request identity `r : Nat`) is threaded
explicitly; the function returns the map after the request completes, the
observable result, and the `OAuthInfo` entry that was visible to the
inner handler while it ran (what `OAuthToken(r)` would return). The
deferred delete runs on every exit of the inner handler, panics
included. -/
def oauth.ServeHTTP (o : oauth) (tokens : Nat → Option OAuthInfo)
    (store : TokenStore) (now : Nat) (r : Nat) (authHeader : String)
    (inner : HandlerOutcome) :
    (Nat → Option OAuthInfo) × ServeResult × Option OAuthInfo :=
  if authHeader ≠ "" ∧ hasPrefixGo authHeader "Bearer " then
    match GetAccessToken store now (trimSpaces (dropChars authHeader 6)) with
    | some token =>
      if ¬ o.Permissive = true ∧
          (if o.Permissive then token.Scope
           else token.Scope ∩ o.scope).card < 1 then
        (tokens, .errorJSON "Insufficient scope" 401, none)
      else
        let info : OAuthInfo :=
          ⟨if o.Permissive then token.Scope else token.Scope ∩ o.scope,
           token⟩
        let during := fun r2 => if r2 = r then some info else tokens r2
        let after := fun r2 => if r2 = r then none else during r2
        (after, .handled inner, some info)
    | none =>
      if ¬ o.Permissive = true then
        (tokens, .errorJSON "Invalid bearer token" 401, none)
      else (tokens, .handled inner, none)
  else
    if ¬ o.Permissive = true then
      (tokens, .errorJSON "No bearer token" 401, none)
    else (tokens, .handled inner, none)

end web

/-! Concrete sample data used by the witness theorems. -/

/-- A sample registered client providing and whitelisting two scopes. -/
def ginClient : Client :=
  ⟨"client-1", "gin", "secret",
   {"account-read", "account-write"}, {"account-read", "account-write"},
   {"https://localhost/callback"}⟩

/-- A second registered client with a different UUID. -/
def wetClient : Client :=
  ⟨"client-2", "wet", "secret2", {"repo-read"}, {"repo-read"},
   {"https://localhost/wb"}⟩

/-- A sample account. -/
def aliceAccount : Account := ⟨"alice", "alice"⟩

/-- A client database holding the two sample clients and no approvals. -/
def clientsDB : DataDB := ⟨[ginClient, wetClient], fun _ _ => none⟩

/-- An authenticated grant request of `ginClient` carrying exchange code
"code-1". -/
def pendingRequest : GrantRequest :=
  ⟨"req-1", "code", "https://localhost/callback", "st", {"account-read"},
   "client-1", some "alice", some "code-1"⟩

/-- A token store holding only `pendingRequest`. -/
def requestStore : TokenStore := ⟨[pendingRequest], fun _ => none, fun _ => none⟩

/-- An empty token store. -/
def emptyStore : TokenStore := ⟨[], fun _ => none, fun _ => none⟩

/-- A sample live access token. -/
def aliceToken : AccessToken :=
  ⟨"3N7MP7M7", {"account-read", "repo-read"}, 10, "client-1", some "alice"⟩

/-- A token store holding only `aliceToken`. -/
def bearerStore : TokenStore :=
  ⟨[], fun s => if s = "3N7MP7M7" then some aliceToken else none,
   fun _ => none⟩

/-- A token store holding one refresh token of `ginClient`. -/
def refreshStore : TokenStore :=
  ⟨[], fun _ => none,
   fun t =>
     if t = "refresh-1" then
       some ⟨"refresh-1", {"account-read"}, "client-1", "alice"⟩
     else none⟩

end GinAuth

namespace GinAuth

/-- C8: `CheckScope` rejects the empty scope set, and otherwise accepts a
scope set exactly when it is contained in the union of the provided-scope
catalogs of all registered clients. -/
theorem CheckScope_empty_false_and_global_subset (db : DataDB)
    (scope : StringSet) :
    CheckScope db (∅ : StringSet) = false ∧
    (CheckScope db scope = true ↔
      scope ≠ ∅ ∧ scope ⊆ scopeProvidedAll db) := by
  constructor
  · simp [CheckScope]
  · unfold CheckScope
    by_cases hs : scope.card = 0
    · simp [hs, Finset.card_eq_zero.mp hs]
    · simp [hs, Finset.card_eq_zero.not.mp hs,
        ← Finset.card_eq_zero.not]

/-- C7: looking up an access token at or after its stored expiry
timestamp yields the same "not found" result as looking up a token string
that was never created. -/
theorem GetAccessToken_expired_eq_nonexistent (store : TokenStore)
    (now : Nat) (t missing : String) (tok : AccessToken)
    (hstored : store.accessTokens t = some tok)
    (hexp : tok.Expires ≤ now)
    (hmissing : store.accessTokens missing = none) :
    GetAccessToken store now t = none ∧
    GetAccessToken store now t = GetAccessToken store now missing := by
  unfold GetAccessToken
  rw [hstored, hmissing]
  simp [hexp]

/-- Witness for C7 at a concrete store: the token "LJ3W7ZFK" stored with
expiry 5 is invisible at time 5, exactly like the never-stored string
"doesNotExist". -/
theorem GetAccessToken_expired_eq_nonexistent_witness :
    GetAccessToken
      ⟨[], fun s =>
        if s = "LJ3W7ZFK" then
          some ⟨"LJ3W7ZFK", {"account-read"}, 5, "client-1", some "bob"⟩
        else none, fun _ => none⟩ 5 "LJ3W7ZFK" = none ∧
    GetAccessToken
      ⟨[], fun s =>
        if s = "LJ3W7ZFK" then
          some ⟨"LJ3W7ZFK", {"account-read"}, 5, "client-1", some "bob"⟩
        else none, fun _ => none⟩ 5 "LJ3W7ZFK" =
    GetAccessToken
      ⟨[], fun s =>
        if s = "LJ3W7ZFK" then
          some ⟨"LJ3W7ZFK", {"account-read"}, 5, "client-1", some "bob"⟩
        else none, fun _ => none⟩ 5 "doesNotExist" :=
  GetAccessToken_expired_eq_nonexistent _ 5 "LJ3W7ZFK" "doesNotExist"
    ⟨"LJ3W7ZFK", {"account-read"}, 5, "client-1", some "bob"⟩
    (by simp) (by simp) (by simp)

end GinAuth

namespace GinAuth

/-- C2: in the authorization_code exchange, a grant request whose client
differs from the authenticating client is deleted, and the error is the
very same "Invalid grant code" payload returned when the code resolves to
nothing, so client mismatch and nonexistence are indistinguishable. -/
theorem tokenAuthorizationCode_mismatch_burns (store : TokenStore)
    (client : Client) (code newAccess newRefresh : String) (expires : Nat)
    (request : GrantRequest)
    (hfind : GetGrantRequestByCode store code = some request)
    (hmismatch : request.ClientUUID ≠ client.UUID) :
    web.tokenAuthorizationCode store client code newAccess newRefresh expires =
      (GrantRequest.Delete store request, .error ⟨"Invalid grant code", 401⟩) ∧
    GetGrantRequest (GrantRequest.Delete store request) request.Token = none ∧
    (∀ (store2 : TokenStore) (client2 : Client) (code2 nA2 nR2 : String)
        (exp2 : Nat),
      GetGrantRequestByCode store2 code2 = none →
      web.tokenAuthorizationCode store2 client2 code2 nA2 nR2 exp2 =
        (store2, .error ⟨"Invalid grant code", 401⟩)) := by
  refine ⟨?_, ?_, ?_⟩
  · unfold web.tokenAuthorizationCode
    rw [hfind]
    simp [hmismatch]
  · rw [GetGrantRequest, List.find?_eq_none]
    intro g hg
    simp only [GrantRequest.Delete, List.mem_filter, decide_eq_true_eq] at hg
    simp [hg.2]
  · intro store2 client2 code2 nA2 nR2 exp2 hnone
    unfold web.tokenAuthorizationCode
    rw [hnone]

/-- Witness for C2: redeeming code "code-1" of `ginClient`'s request as
`wetClient` burns the request and yields the "Invalid grant code"
error. -/
theorem tokenAuthorizationCode_mismatch_burns_witness :
    web.tokenAuthorizationCode requestStore wetClient "code-1" "a1" "r1" 10 =
      (GrantRequest.Delete requestStore pendingRequest,
       .error ⟨"Invalid grant code", 401⟩) :=
  (tokenAuthorizationCode_mismatch_burns requestStore wetClient "code-1"
    "a1" "r1" 10 pendingRequest (by decide) (by decide)).1

/-- C3: a refresh_token exchange with a matching client mints a new
access token carrying exactly the refresh token's stored scope, account
and client, leaves the refresh token record untouched, and any further
successful exchange of the same refresh token yields a distinct access
token while the refresh token still survives. -/
theorem tokenRefreshToken_not_rotated (store : TokenStore)
    (client : Client) (refreshStr newAccess : String) (expires : Nat)
    (refresh : RefreshToken)
    (hfind : store.refreshTokens refreshStr = some refresh)
    (hclient : refresh.ClientUUID = client.UUID)
    (hfresh : store.accessTokens newAccess = none) :
    ∃ store',
      web.tokenRefreshToken store client refreshStr newAccess expires =
        (store', .ok ⟨"Bearer", refresh.Scope, newAccess, none⟩) ∧
      store'.accessTokens newAccess =
        some ⟨newAccess, refresh.Scope, expires, refresh.ClientUUID,
          some refresh.AccountUUID⟩ ∧
      store'.refreshTokens = store.refreshTokens ∧
      store'.grantRequests = store.grantRequests ∧
      (∀ (newAccess2 : String) (expires2 : Nat) (store'' : TokenStore)
          (resp : web.tokenResponse),
        web.tokenRefreshToken store' client refreshStr newAccess2 expires2 =
          (store'', .ok resp) →
        resp.AccessToken ≠ newAccess ∧
        GetRefreshToken store'' refreshStr = some refresh) := by
  refine ⟨{ store with
      accessTokens := fun t =>
        if t = newAccess then
          some ⟨newAccess, refresh.Scope, expires, refresh.ClientUUID,
            some refresh.AccountUUID⟩
        else store.accessTokens t }, ?_, ?_, ?_, ?_, ?_⟩
  · unfold web.tokenRefreshToken GetRefreshToken
    rw [hfind]
    simp [hclient, AccessToken.Create, hfresh]
  · simp
  · rfl
  · rfl
  · intro newAccess2 expires2 store'' resp hok
    by_cases hdup : newAccess2 = newAccess
    · subst hdup
      unfold web.tokenRefreshToken GetRefreshToken at hok
      rw [hfind] at hok
      simp [hclient, AccessToken.Create] at hok
    · unfold web.tokenRefreshToken GetRefreshToken at hok
      rw [hfind] at hok
      simp [hclient, AccessToken.Create, hdup] at hok
      cases hcase : store.accessTokens newAccess2 with
      | some a =>
          rw [hcase] at hok
          simp at hok
      | none =>
          rw [hcase] at hok
          simp at hok
          obtain ⟨h1, h2⟩ := hok
          constructor
          · rw [← h2]
            simpa using hdup
          · rw [← h1]
            unfold GetRefreshToken
            simpa using hfind

/-- Witness for C3: exchanging refresh token "refresh-1" of `ginClient`
for access token "tok-1" leaves the refresh token in place and carries
its scope. -/
theorem tokenRefreshToken_not_rotated_witness :
    ∃ store',
      web.tokenRefreshToken refreshStore ginClient "refresh-1" "tok-1" 10 =
        (store', .ok ⟨"Bearer", {"account-read"}, "tok-1", none⟩) ∧
      store'.accessTokens "tok-1" =
        some ⟨"tok-1", {"account-read"}, 10, "client-1", some "alice"⟩ ∧
      store'.refreshTokens = refreshStore.refreshTokens ∧
      store'.grantRequests = refreshStore.grantRequests ∧
      (∀ (newAccess2 : String) (expires2 : Nat) (store'' : TokenStore)
          (resp : web.tokenResponse),
        web.tokenRefreshToken store' ginClient "refresh-1" newAccess2 expires2 =
          (store'', .ok resp) →
        resp.AccessToken ≠ "tok-1" ∧
        GetRefreshToken store'' "refresh-1" =
          some ⟨"refresh-1", {"account-read"}, "client-1", "alice"⟩) :=
  tokenRefreshToken_not_rotated refreshStore ginClient "refresh-1" "tok-1"
    10 ⟨"refresh-1", {"account-read"}, "client-1", "alice"⟩
    (by simp [refreshStore]) (by decide) (by simp [refreshStore])

/-- C5: the password and client_credentials grants reject an empty scope
or one exceeding the authenticating client's whitelist with the
"Invalid scope" error and no token created; otherwise they mint an access
token with exactly the requested scope — account-bound for password,
account-free for client_credentials, and never a refresh token. -/
theorem tokenPassword_clientCredentials_scope (store : TokenStore)
    (client : Client) (account : Account) (scope : StringSet)
    (newAccess : String) (expires : Nat) :
    ((scope = ∅ ∨ ¬ scope ⊆ client.ScopeWhitelist) →
      web.tokenPassword store client account scope newAccess expires =
        (store, .error ⟨"Invalid scope", 401⟩) ∧
      web.tokenClientCredentials store client scope newAccess expires =
        (store, .error ⟨"Invalid scope", 401⟩)) ∧
    (scope ≠ ∅ → scope ⊆ client.ScopeWhitelist →
      store.accessTokens newAccess = none →
      (∃ store',
        web.tokenPassword store client account scope newAccess expires =
          (store', .ok ⟨"Bearer", scope, newAccess, none⟩) ∧
        store'.accessTokens newAccess =
          some ⟨newAccess, scope, expires, client.UUID, some account.UUID⟩ ∧
        store'.refreshTokens = store.refreshTokens) ∧
      (∃ store',
        web.tokenClientCredentials store client scope newAccess expires =
          (store', .ok ⟨"Bearer", scope, newAccess, none⟩) ∧
        store'.accessTokens newAccess =
          some ⟨newAccess, scope, expires, client.UUID, none⟩ ∧
        store'.refreshTokens = store.refreshTokens)) := by
  constructor
  · intro hbad
    have hcond : scope.card = 0 ∨ ¬ scope ⊆ client.ScopeWhitelist := by
      rcases hbad with h | h
      · exact Or.inl (by simp [h])
      · exact Or.inr h
    constructor
    · unfold web.tokenPassword
      rw [if_pos hcond]
    · unfold web.tokenClientCredentials
      rw [if_pos hcond]
  · intro hne hsub hfresh
    have hcond : ¬ (scope.card = 0 ∨ ¬ scope ⊆ client.ScopeWhitelist) := by
      push_neg
      exact ⟨by simpa [Finset.card_eq_zero] using hne, hsub⟩
    constructor
    · refine ⟨{ store with
        accessTokens := fun t =>
          if t = newAccess then
            some ⟨newAccess, scope, expires, client.UUID, some account.UUID⟩
          else store.accessTokens t }, ?_, ?_, ?_⟩
      · unfold web.tokenPassword
        rw [if_neg hcond]
        simp [AccessToken.Create, hfresh]
      · simp
      · rfl
    · refine ⟨{ store with
        accessTokens := fun t =>
          if t = newAccess then
            some ⟨newAccess, scope, expires, client.UUID, none⟩
          else store.accessTokens t }, ?_, ?_, ?_⟩
      · unfold web.tokenClientCredentials
        rw [if_neg hcond]
        simp [AccessToken.Create, hfresh]
      · simp
      · rfl

/-- Witness for C5: the empty scope is rejected by both grants; scope
"account-read" within `ginClient`'s whitelist mints the expected
tokens. -/
theorem tokenPassword_clientCredentials_scope_witness :
    (web.tokenPassword emptyStore ginClient aliceAccount ∅ "tok-1" 10 =
        (emptyStore, .error ⟨"Invalid scope", 401⟩) ∧
      web.tokenClientCredentials emptyStore ginClient ∅ "tok-1" 10 =
        (emptyStore, .error ⟨"Invalid scope", 401⟩)) ∧
    ((∃ store',
        web.tokenPassword emptyStore ginClient aliceAccount
            {"account-read"} "tok-1" 10 =
          (store', .ok ⟨"Bearer", {"account-read"}, "tok-1", none⟩) ∧
        store'.accessTokens "tok-1" =
          some ⟨"tok-1", {"account-read"}, 10, ginClient.UUID,
            some aliceAccount.UUID⟩ ∧
        store'.refreshTokens = emptyStore.refreshTokens) ∧
      (∃ store',
        web.tokenClientCredentials emptyStore ginClient
            {"account-read"} "tok-1" 10 =
          (store', .ok ⟨"Bearer", {"account-read"}, "tok-1", none⟩) ∧
        store'.accessTokens "tok-1" =
          some ⟨"tok-1", {"account-read"}, 10, ginClient.UUID, none⟩ ∧
        store'.refreshTokens = emptyStore.refreshTokens)) :=
  ⟨(tokenPassword_clientCredentials_scope emptyStore ginClient aliceAccount
      ∅ "tok-1" 10).1 (Or.inl rfl),
   (tokenPassword_clientCredentials_scope emptyStore ginClient aliceAccount
      {"account-read"} "tok-1" 10).2 (by decide) (by decide) rfl⟩

/-- C6: consent fails with "Requested scope was not approved" whenever
the user-approved scope does not cover requested-minus-whitelist, and on
success the approval ledger holds the full requested scope of the
request, not merely the consented difference. -/
theorem Approve_requires_delta_records_full (db : DataDB) (client : Client)
    (request : GrantRequest) (scopeApproved : StringSet)
    (accountUUID : String)
    (hacct : request.AccountUUID = some accountUUID) :
    (¬ request.ScopeRequested \ client.ScopeWhitelist ⊆ scopeApproved →
      web.Approve db client request scopeApproved =
        .error "Requested scope was not approved") ∧
    (∀ db', web.Approve db client request scopeApproved = .ok db' →
      ∃ s, db'.approvals client.UUID accountUUID = some s ∧
        request.ScopeRequested ⊆ s) := by
  constructor
  · intro hno
    unfold web.Approve
    rw [hacct]
    simp [hno]
  · intro db' hok
    unfold web.Approve at hok
    rw [hacct] at hok
    by_cases hsub : request.ScopeRequested \ client.ScopeWhitelist ⊆ scopeApproved
    · simp only [hsub, not_true_eq_false, if_false, ite_false] at hok
      unfold Client.Approve Client.ApprovalForAccount at hok
      by_cases hcs : CheckScope db request.ScopeRequested
      · rw [if_pos hcs] at hok
        cases h0 : db.approvals client.UUID accountUUID with
        | none =>
            rw [h0] at hok
            simp only [Option.map_none'] at hok
            cases hok
            exact ⟨request.ScopeRequested, by simp [DataDB.setApproval],
              le_refl _⟩
        | some s0 =>
            rw [h0] at hok
            simp only [Option.map_some'] at hok
            by_cases hsup : request.ScopeRequested ⊆ s0
            · rw [if_pos (by simpa using hsup)] at hok
              cases hok
              exact ⟨s0, h0, hsup⟩
            · rw [if_neg (by simpa using hsup)] at hok
              cases hok
              exact ⟨s0 ∪ request.ScopeRequested,
                by simp [DataDB.setApproval], Finset.subset_union_right⟩
      · rw [if_neg hcs] at hok
        cases hok
    · simp [hsub] at hok

/-- Witness for C6 on the sample client database and the authenticated
request `pendingRequest`. -/
theorem Approve_requires_delta_records_full_witness :
    (¬ pendingRequest.ScopeRequested \ ginClient.ScopeWhitelist ⊆
        (∅ : StringSet) →
      web.Approve clientsDB ginClient pendingRequest ∅ =
        .error "Requested scope was not approved") ∧
    (∀ db', web.Approve clientsDB ginClient pendingRequest ∅ = .ok db' →
      ∃ s, db'.approvals ginClient.UUID "alice" = some s ∧
        pendingRequest.ScopeRequested ⊆ s) :=
  Approve_requires_delta_records_full clientsDB ginClient pendingRequest
    ∅ "alice" rfl

/-- `approvalLE` is reflexive. -/
theorem approvalLE_refl (x : Option StringSet) : approvalLE x x := by
  cases x <;> simp [approvalLE]

/-- `approvalLE` is transitive. -/
theorem approvalLE_trans {x y z : Option StringSet} (h1 : approvalLE x y)
    (h2 : approvalLE y z) : approvalLE x z := by
  cases x <;> cases y <;> cases z <;> simp_all [approvalLE]
  exact h1.trans h2

/-- An `Approve` call with invalid scope leaves the database unchanged. -/
theorem approveRun_checkScope_false (client : Client) (acct : String)
    (db : DataDB) (scope : StringSet) (h : CheckScope db scope = false) :
    approveRun client acct db scope = db := by
  unfold approveRun Client.Approve
  rw [if_neg (by simp [h])]

/-- After an `Approve` call with valid scope, the stored approval scope at
the call's key is the union of what was stored before (nothing, for an
absent record) with the newly approved scope. -/
theorem approveRun_approvals_key (client : Client) (acct : String)
    (db : DataDB) (scope : StringSet) (h : CheckScope db scope = true) :
    (approveRun client acct db scope).approvals client.UUID acct =
      some ((db.approvals client.UUID acct).getD ∅ ∪ scope) := by
  unfold approveRun Client.Approve Client.ApprovalForAccount
  rw [if_pos h]
  cases h0 : db.approvals client.UUID acct with
  | none => simp [DataDB.setApproval]
  | some s0 =>
      by_cases hs : scope ⊆ s0
      · simp [hs, h0, Finset.union_eq_left]
      · simp [hs, DataDB.setApproval]

/-- An `Approve` call writes no approval key other than its own. -/
theorem approveRun_approvals_other (client : Client) (acct : String)
    (db : DataDB) (scope : StringSet) (c a : String)
    (hne : ¬ (c = client.UUID ∧ a = acct)) :
    (approveRun client acct db scope).approvals c a = db.approvals c a := by
  by_cases h : CheckScope db scope = true
  · unfold approveRun Client.Approve Client.ApprovalForAccount
    rw [if_pos h]
    cases h0 : db.approvals client.UUID acct with
    | none => simp [DataDB.setApproval, hne]
    | some s0 =>
        by_cases hs : scope ⊆ s0
        · simp [hs]
        · simp [hs, DataDB.setApproval, hne]
  · rw [approveRun_checkScope_false client acct db scope (by simpa using h)]

/-- `Approve` never touches the `Clients` table. -/
theorem approveRun_clients (client : Client) (acct : String) (db : DataDB)
    (scope : StringSet) :
    (approveRun client acct db scope).clients = db.clients := by
  by_cases h : CheckScope db scope = true
  · unfold approveRun Client.Approve Client.ApprovalForAccount
    rw [if_pos h]
    cases h0 : db.approvals client.UUID acct with
    | none => simp [DataDB.setApproval]
    | some s0 =>
        by_cases hs : scope ⊆ s0
        · simp [hs]
        · simp [hs, DataDB.setApproval]
  · rw [approveRun_checkScope_false client acct db scope (by simpa using h)]

/-- `CheckScope` only reads the `Clients` table. -/
theorem CheckScope_clients_congr (db db' : DataDB)
    (h : db'.clients = db.clients) (s : StringSet) :
    CheckScope db' s = CheckScope db s := by
  unfold CheckScope scopeProvidedAll
  rw [h]

/-- An `Approve` call with a scope already covered by the stored approval
is a strict no-op. -/
theorem Approve_superset_noop (client : Client) (acct : String)
    (db : DataDB) (scope s0 : StringSet) (h : CheckScope db scope = true)
    (h0 : db.approvals client.UUID acct = some s0) (hs : scope ⊆ s0) :
    client.Approve db acct scope = .ok db := by
  unfold Client.Approve Client.ApprovalForAccount
  rw [if_pos h, h0]
  simp [hs]

/-- `approveRun` returns whatever a successful `Approve` returned. -/
theorem approveRun_eq_of_ok {client : Client} {acct : String} {db db' : DataDB}
    {scope : StringSet} (h : client.Approve db acct scope = .ok db') :
    approveRun client acct db scope = db' := by
  unfold approveRun
  rw [h]

/-- A single `Approve` call never shrinks any stored approval scope. -/
theorem approveRun_mono (client : Client) (acct : String) (db : DataDB)
    (scope : StringSet) (c a : String) :
    approvalLE (db.approvals c a)
      ((approveRun client acct db scope).approvals c a) := by
  by_cases hkey : c = client.UUID ∧ a = acct
  · obtain ⟨hc, ha⟩ := hkey
    subst hc
    subst ha
    by_cases h : CheckScope db scope = true
    · rw [approveRun_approvals_key client a db scope h]
      cases h0 : db.approvals client.UUID a with
      | none => simp [approvalLE]
      | some s0 => simp only [approvalLE, Option.getD_some]; exact Finset.subset_union_left
    · rw [approveRun_checkScope_false client a db scope (by simpa using h)]
      exact approvalLE_refl _
  · rw [approveRun_approvals_other client acct db scope c a hkey]
    exact approvalLE_refl _

/-- No sequence of `Approve` calls ever shrinks a stored approval
scope. -/
theorem approveRun_foldl_mono (client : Client) (acct : String)
    (calls : List StringSet) : ∀ (db0 : DataDB) (c a : String),
    approvalLE (db0.approvals c a)
      ((calls.foldl (approveRun client acct) db0).approvals c a) := by
  induction calls with
  | nil => intro db0 c a; exact approvalLE_refl _
  | cons s rest ih =>
      intro db0 c a
      simp only [List.foldl_cons]
      exact approvalLE_trans (approveRun_mono client acct db0 s c a)
        (ih (approveRun client acct db0 s) c a)

/-- C4: starting from no approval, two `Approve` calls with valid scopes
s1 and s2 leave the (client, account) approval at exactly s1 ∪ s2 in
either call order, repeating a call with the same scope changes nothing,
and no sequence of `Approve` calls ever shrinks a stored approval
scope. -/
theorem Approve_union_commutative_idempotent_monotone (db : DataDB)
    (client : Client) (accountUUID : String) (s1 s2 : StringSet)
    (h0 : db.approvals client.UUID accountUUID = none)
    (h1 : CheckScope db s1 = true) (h2 : CheckScope db s2 = true) :
    (approveRun client accountUUID (approveRun client accountUUID db s1)
        s2).approvals client.UUID accountUUID = some (s1 ∪ s2) ∧
    (approveRun client accountUUID (approveRun client accountUUID db s2)
        s1).approvals client.UUID accountUUID = some (s1 ∪ s2) ∧
    approveRun client accountUUID (approveRun client accountUUID db s1) s1 =
      approveRun client accountUUID db s1 ∧
    (∀ (db0 : DataDB) (calls : List StringSet) (c a : String),
      approvalLE (db0.approvals c a)
        ((calls.foldl (approveRun client accountUUID) db0).approvals c a)) := by
  have hc1 : ∀ s, CheckScope (approveRun client accountUUID db s1) s =
      CheckScope db s :=
    fun s => CheckScope_clients_congr db _ (approveRun_clients _ _ _ _) s
  have hc2 : ∀ s, CheckScope (approveRun client accountUUID db s2) s =
      CheckScope db s :=
    fun s => CheckScope_clients_congr db _ (approveRun_clients _ _ _ _) s
  have hk1 : (approveRun client accountUUID db s1).approvals client.UUID
      accountUUID = some s1 := by
    rw [approveRun_approvals_key client accountUUID db s1 h1, h0]
    simp
  have hk2 : (approveRun client accountUUID db s2).approvals client.UUID
      accountUUID = some s2 := by
    rw [approveRun_approvals_key client accountUUID db s2 h2, h0]
    simp
  refine ⟨?_, ?_, ?_, ?_⟩
  · rw [approveRun_approvals_key client accountUUID _ s2
      ((hc1 s2).trans h2), hk1]
    rfl
  · rw [approveRun_approvals_key client accountUUID _ s1
      ((hc2 s1).trans h1), hk2]
    simp [Finset.union_comm]
  · exact approveRun_eq_of_ok (Approve_superset_noop client accountUUID
      (approveRun client accountUUID db s1) s1 s1
      ((hc1 s1).trans h1) hk1 (le_refl _))
  · intro db0 calls c a
    exact approveRun_foldl_mono client accountUUID calls db0 c a

/-- Witness for C4 on the sample client database: approving
"account-read" then "account-write" for alice yields exactly their
union. -/
theorem Approve_union_commutative_idempotent_monotone_witness :
    (approveRun ginClient "alice"
        (approveRun ginClient "alice" clientsDB {"account-read"})
        {"account-write"}).approvals ginClient.UUID "alice" =
      some ({"account-read"} ∪ {"account-write"}) :=
  (Approve_union_commutative_idempotent_monotone clientsDB ginClient
    "alice" {"account-read"} {"account-write"} rfl (by decide)
    (by decide)).1

/-- Computation of a successful `ExchangeCodeForTokens`: with fresh token
strings, the exchange deletes the grant request and stores the two newly
minted tokens. -/
theorem ExchangeCodeForTokens_ok (store : TokenStore)
    (request : GrantRequest) (newAccess newRefresh : String)
    (expires : Nat) (accountUUID : String)
    (hacct : request.AccountUUID = some accountUUID)
    (haccess : store.accessTokens newAccess = none)
    (hrefresh : store.refreshTokens newRefresh = none) :
    GrantRequest.ExchangeCodeForTokens store request newAccess newRefresh
        expires =
      .ok (newAccess, newRefresh,
        { grantRequests := store.grantRequests.filter
            (fun g => decide (¬ g.Token = request.Token)),
          accessTokens := fun t =>
            if t = newAccess then
              some ⟨newAccess, request.ScopeRequested, expires,
                request.ClientUUID, some accountUUID⟩
            else store.accessTokens t,
          refreshTokens := fun t =>
            if t = newRefresh then
              some ⟨newRefresh, request.ScopeRequested, request.ClientUUID,
                accountUUID⟩
            else store.refreshTokens t }) := by
  unfold GrantRequest.ExchangeCodeForTokens
  rw [hacct]
  unfold AccessToken.Create RefreshToken.Create GrantRequest.Delete
  simp only
  rw [haccess]
  simp [hrefresh]

/-- C1: a successful authorization_code exchange (code found, client
matching) returns one access token and one refresh token scoped exactly
to the request's requested scope and bound to its account and client,
deletes the grant request, and any second redemption of the same code,
by any client, fails with the "Invalid grant code" error. -/
theorem tokenAuthorizationCode_single_use (store : TokenStore)
    (client : Client) (code newAccess newRefresh : String) (expires : Nat)
    (request : GrantRequest) (accountUUID : String)
    (hfind : GetGrantRequestByCode store code = some request)
    (huniq : ∀ g ∈ store.grantRequests, g.Code = some code →
      g.Token = request.Token)
    (hclient : request.ClientUUID = client.UUID)
    (hacct : request.AccountUUID = some accountUUID)
    (haccess : store.accessTokens newAccess = none)
    (hrefresh : store.refreshTokens newRefresh = none) :
    ∃ store',
      web.tokenAuthorizationCode store client code newAccess newRefresh
          expires =
        (store', .ok ⟨"Bearer", request.ScopeRequested, newAccess,
          some newRefresh⟩) ∧
      store'.accessTokens newAccess =
        some ⟨newAccess, request.ScopeRequested, expires,
          request.ClientUUID, some accountUUID⟩ ∧
      store'.refreshTokens newRefresh =
        some ⟨newRefresh, request.ScopeRequested, request.ClientUUID,
          accountUUID⟩ ∧
      GetGrantRequest store' request.Token = none ∧
      GetGrantRequestByCode store' code = none ∧
      (∀ (client2 : Client) (nA2 nR2 : String) (exp2 : Nat),
        web.tokenAuthorizationCode store' client2 code nA2 nR2 exp2 =
          (store', .error ⟨"Invalid grant code", 401⟩)) := by
  have hex := ExchangeCodeForTokens_ok store request newAccess newRefresh
    expires accountUUID hacct haccess hrefresh
  have hbyCode : GetGrantRequestByCode
      { grantRequests := store.grantRequests.filter
          (fun g => decide (¬ g.Token = request.Token)),
        accessTokens := fun t =>
          if t = newAccess then
            some ⟨newAccess, request.ScopeRequested, expires,
              request.ClientUUID, some accountUUID⟩
          else store.accessTokens t,
        refreshTokens := fun t =>
          if t = newRefresh then
            some ⟨newRefresh, request.ScopeRequested, request.ClientUUID,
              accountUUID⟩
          else store.refreshTokens t } code = none := by
    rw [GetGrantRequestByCode, List.find?_eq_none]
    intro g hg
    simp only [List.mem_filter, decide_eq_true_eq] at hg
    simp only [decide_eq_true_eq]
    intro hc
    exact hg.2 (huniq g hg.1 hc)
  refine ⟨_, ?_, ?_, ?_, ?_, hbyCode, ?_⟩
  · unfold web.tokenAuthorizationCode
    rw [hfind]
    simp [hclient, hex]
  · simp
  · simp
  · rw [GetGrantRequest, List.find?_eq_none]
    intro g hg
    simp only [List.mem_filter, decide_eq_true_eq] at hg
    simp only [decide_eq_true_eq]
    exact hg.2
  · intro client2 nA2 nR2 exp2
    unfold web.tokenAuthorizationCode
    rw [hbyCode]

/-- Witness for C1: `ginClient` redeems code "code-1" of its request,
receiving access token "a1" and refresh token "r1" scoped to the
request's scope; the request is gone and the code dead. -/
theorem tokenAuthorizationCode_single_use_witness :
    ∃ store',
      web.tokenAuthorizationCode requestStore ginClient "code-1" "a1" "r1"
          10 =
        (store', .ok ⟨"Bearer", pendingRequest.ScopeRequested, "a1",
          some "r1"⟩) ∧
      store'.accessTokens "a1" =
        some ⟨"a1", pendingRequest.ScopeRequested, 10,
          pendingRequest.ClientUUID, some "alice"⟩ ∧
      store'.refreshTokens "r1" =
        some ⟨"r1", pendingRequest.ScopeRequested,
          pendingRequest.ClientUUID, "alice"⟩ ∧
      GetGrantRequest store' pendingRequest.Token = none ∧
      GetGrantRequestByCode store' "code-1" = none ∧
      (∀ (client2 : Client) (nA2 nR2 : String) (exp2 : Nat),
        web.tokenAuthorizationCode store' client2 "code-1" nA2 nR2 exp2 =
          (store', .error ⟨"Invalid grant code", 401⟩)) :=
  tokenAuthorizationCode_single_use requestStore ginClient "code-1" "a1"
    "r1" 10 pendingRequest "alice" (by decide) (by decide) (by decide)
    (by decide) rfl rfl

/-- C9: whatever entry `oauth.ServeHTTP` inserts into the shared
request-to-authorization map for a fresh request identity is removed
before that request's handling completes, on every exit path — early
error returns, a normally returning inner handler, and a panicking inner
handler alike — and no other request's entry is touched. -/
theorem ServeHTTP_releases_request_entry (o : web.oauth)
    (tokens : Nat → Option web.OAuthInfo) (store : TokenStore)
    (now r : Nat) (authHeader : String) (inner : web.HandlerOutcome)
    (hfresh : tokens r = none) :
    (web.oauth.ServeHTTP o tokens store now r authHeader inner).1 r = none ∧
    (∀ r2, r2 ≠ r →
      (web.oauth.ServeHTTP o tokens store now r authHeader inner).1 r2 =
        tokens r2) := by
  refine ⟨?_, ?_⟩
  · unfold web.oauth.ServeHTTP
    split
    all_goals try split
    all_goals try split
    all_goals try split
    all_goals simp [hfresh]
  · intro r2 hr2
    unfold web.oauth.ServeHTTP
    split
    all_goals try split
    all_goals try split
    all_goals try split
    all_goals simp [hr2]

/-- Witness for C9: a permissive handler over an anonymous request leaves
the (empty) map without an entry for the request. -/
theorem ServeHTTP_releases_request_entry_witness :
    (web.oauth.ServeHTTP ⟨true, ∅⟩ (fun _ => none) emptyStore 0 7 ""
        web.HandlerOutcome.normal).1 7 = none ∧
    (∀ r2, r2 ≠ 7 →
      (web.oauth.ServeHTTP ⟨true, ∅⟩ (fun _ => none) emptyStore 0 7 ""
          web.HandlerOutcome.normal).1 r2 = (fun _ => none : Nat → Option web.OAuthInfo) r2) :=
  ServeHTTP_releases_request_entry ⟨true, ∅⟩ (fun _ => none) emptyStore 0 7
    "" web.HandlerOutcome.normal rfl

/-- C10: with a resolvable bearer token, a permissive handler exposes the
token's entire granted scope as the matched scope — no intersection with
any required scope — while the non-permissive path exposes exactly the
intersection with the declared scope. -/
theorem ServeHTTP_permissive_full_scope
    (tokens : Nat → Option web.OAuthInfo) (store : TokenStore)
    (now r : Nat) (requiredScope : StringSet) (authHeader : String)
    (inner : web.HandlerOutcome) (token : AccessToken)
    (hheader : authHeader ≠ "" ∧ web.hasPrefixGo authHeader "Bearer ")
    (hresolve : GetAccessToken store now
      (web.trimSpaces (web.dropChars authHeader 6)) = some token) :
    (web.oauth.ServeHTTP ⟨true, requiredScope⟩ tokens store now r
        authHeader inner).2.2 = some ⟨token.Scope, token⟩ ∧
    ((token.Scope ∩ requiredScope).card ≥ 1 →
      (web.oauth.ServeHTTP ⟨false, requiredScope⟩ tokens store now r
          authHeader inner).2.2 =
        some ⟨token.Scope ∩ requiredScope, token⟩) := by
  constructor
  · unfold web.oauth.ServeHTTP
    rw [if_pos hheader]
    simp [hresolve]
  · intro hcard
    have hnot : ¬ (token.Scope ∩ requiredScope).card < 1 := by omega
    unfold web.oauth.ServeHTTP
    rw [if_pos hheader]
    simp [hresolve, hnot]

/-- Witness for C10: the token "3N7MP7M7" carrying two scopes is exposed
whole by a permissive handler, and cut down to the required scope by a
non-permissive one. -/
theorem ServeHTTP_permissive_full_scope_witness :
    (web.oauth.ServeHTTP ⟨true, {"repo-read"}⟩ (fun _ => none) bearerStore
        0 7 "Bearer 3N7MP7M7" web.HandlerOutcome.normal).2.2 =
      some ⟨aliceToken.Scope, aliceToken⟩ ∧
    ((aliceToken.Scope ∩ {"repo-read"}).card ≥ 1 →
      (web.oauth.ServeHTTP ⟨false, {"repo-read"}⟩ (fun _ => none)
          bearerStore 0 7 "Bearer 3N7MP7M7"
          web.HandlerOutcome.normal).2.2 =
        some ⟨aliceToken.Scope ∩ {"repo-read"}, aliceToken⟩) :=
  ServeHTTP_permissive_full_scope (fun _ => none) bearerStore 0 7
    {"repo-read"} "Bearer 3N7MP7M7" web.HandlerOutcome.normal aliceToken
    ⟨by decide, by decide⟩ (by decide)
